import Mathlib

/-!
Verification development for the asynchronous completion-signaling core of the
`android_frameworks_ml` neural-networks runtime, together with the
`stridedSliceGeneric` CPU kernel entry point.

The source of truth is `src/nn/runtime/Callbacks.h` (class `CallbackBase` and
its derived classes `PreparedModelCallback` and `ExecutionCallback`) and
`src/nn/common/operations/StridedSlice.cpp`.  The header contains the full
declarations and documented contracts of every `CallbackBase` method, the
inline body of `ExecutionCallback::notify(status, outputShapes)` and the
template body of `CallbackBase::wait_for`; the out-of-line method bodies live
in a `Callbacks.cpp` that is not part of the provided sources, so those
operations are modelled from the specification (each such definition carries a
doc comment starting `Modelled from the spec:`).

Concurrency model: per the specification, all mutation of a callback object's
internal state is serialized through one internal mutex plus a condition
signal, so an execution of one object is abstracted as a sequence of atomic
events (each event is one critical section).  A labelled-transition-system
(`cbStep` / `cbEnabled` / `cbValid`) over that event alphabet represents the
set of all interleavings.
-/

namespace NNRuntime

/-- `std::cv_status`, the result type of `CallbackBase::wait_for`. -/
inductive CvStatus where
  | noTimeout : CvStatus
  | timeout   : CvStatus
deriving Repr, DecidableEq

/-- `V1_0::ErrorStatus` of the neural-networks HAL, the status vocabulary of
both callback classes. -/
inductive ErrorStatus where
  | NONE                     : ErrorStatus
  | DEVICE_UNAVAILABLE       : ErrorStatus
  | GENERAL_FAILURE          : ErrorStatus
  | OUTPUT_INSUFFICIENT_SIZE : ErrorStatus
  | INVALID_ARGUMENT         : ErrorStatus
deriving Repr, DecidableEq

/-- State of a `CallbackBase` object (`Callbacks.h` lines 173-177), with the
ghost field `postWorkRuns` counting how many times the bound deferred-work
function has been executed.  The `std::thread mThread` member is abstracted by
two booleans: `mThreadBound` records that a thread was handed over by a
successful `bind_thread`, and `mThreadJoined` that the physical join has
happened (`mThread.joinable()` corresponds to `mThreadBound && !mThreadJoined`). -/
structure CBState where
  mNotified    : Bool
  /-- the registered deferred-work item (`mPostWork`), abstracted by an
  identifier; `none` means no function with a target is bound. -/
  mPostWork    : Option Nat
  /-- ghost counter: number of executions of the deferred work so far. -/
  postWorkRuns : Nat
  mThreadBound : Bool
  mThreadJoined : Bool
deriving Repr, DecidableEq

/-- The state of a freshly constructed `CallbackBase`: not notified, no
deferred work, no bound thread. -/
def initCB : CBState :=
  { mNotified := false, mPostWork := none, postWorkRuns := 0,
    mThreadBound := false, mThreadJoined := false }

/-- Modelled from the spec: `CallbackBase::on_finish` (body not among the
provided sources).  "registers `deferredWork`. Fails (returns false) if `work`
is empty/unset or if a deferred work item is already registered."  `hasTarget`
is whether the supplied `std::function` has a target (does not compare equal
to `nullptr`); `workId` identifies the function being bound. -/
def on_finish (hasTarget : Bool) (workId : Nat) (s : CBState) : Bool × CBState :=
  if s.mPostWork.isSome then (false, s)
  else if !hasTarget then (false, s)
  else (true, { s with mPostWork := some workId })

/-- Modelled from the spec: `CallbackBase::bind_thread` (body not among the
provided sources).  "attaches a joinable thread to the object for later
reclamation. Fails (returns false) if a thread is already bound or if the
supplied thread is not in a joinable state." -/
def bind_thread (joinable : Bool) (s : CBState) : Bool × CBState :=
  if s.mThreadBound then (false, s)
  else if !joinable then (false, s)
  else (true, { s with mThreadBound := true, mThreadJoined := false })

/-- Modelled from the spec: `CallbackBase::join_thread_locked` (body not among
the provided sources).  Joins the bound thread if one exists and has not yet
been joined; otherwise does nothing, so that "exactly one physical join
occurs". -/
def join_thread_locked (s : CBState) : CBState :=
  if s.mThreadBound && !s.mThreadJoined then { s with mThreadJoined := true } else s

/-- Modelled from the spec: `CallbackBase::join_thread` (body not among the
provided sources) acquires the mutex and performs `join_thread_locked`. -/
def join_thread (s : CBState) : CBState := join_thread_locked s

/-- Modelled from the spec: `CallbackBase::notify` (body not among the provided
sources).  "sets `notified`, runs `deferredWork` exactly once if registered,
then releases all current and future waiters."  The deferred-work execution is
recorded in the ghost counter `postWorkRuns`. -/
def notify (s : CBState) : CBState :=
  match s.mPostWork with
  | some _ => { s with mNotified := true, postWorkRuns := s.postWorkRuns + 1 }
  | none   => { s with mNotified := true }

/-- `CallbackBase::wait` blocks until `mNotified` is true; this predicate says
whether a `wait` call (and hence `getStatus`/`getPreparedModel` and the other
readers, which begin by calling `wait`) would block in state `s`. -/
def waitBlocks (s : CBState) : Bool := !s.mNotified

/-- Modelled from the spec: the predicate form of
`std::condition_variable::wait_for` used at `Callbacks.h` line 382 reports
success iff the predicate `mNotified` became true before the timeout expired.
With the completion flip occurring at absolute time `flipTime` (`none` if it
never occurs), a `wait_for` call entered at `callTime` with duration `dur`
observes the predicate in time iff `flipTime < callTime + dur`. -/
def flipBeforeDeadline (flipTime : Option Nat) (callTime dur : Nat) : Bool :=
  match flipTime with
  | some tf => decide (tf < callTime + dur)
  | none    => false

/-- `CallbackBase::wait_for` (`Callbacks.h` lines 379-387): waits on the
condition variable for `mNotified` with a timeout; if the resulting status is
not `std::cv_status::timeout` it runs `join_thread_locked()`, and it returns
the status.  `s` is the object state at the moment the call wakes up holding
the lock. -/
def wait_for (flipTime : Option Nat) (callTime dur : Nat) (s : CBState) :
    CvStatus × CBState :=
  let status := if flipBeforeDeadline flipTime callTime dur then CvStatus.noTimeout
    else CvStatus.timeout
  if status ≠ CvStatus.timeout then (status, join_thread_locked s) else (status, s)

/-- One atomic critical section on a `CallbackBase` object.  `waitRet` is the
final predicate check and thread reclamation of a `wait()` call that is about
to return; `waitForRet res` likewise for a `wait_for` call returning `res`. -/
inductive CBEvent where
  | onFinish  (hasTarget : Bool) (workId : Nat) : CBEvent
  | bindThread (joinable : Bool) : CBEvent
  | joinThread : CBEvent
  | notifyEvt  : CBEvent
  | waitRet    : CBEvent
  | waitForRet (res : CvStatus) : CBEvent
deriving Repr, DecidableEq

/-- Enabledness of an event: a `wait()` call can return only once `mNotified`
holds; a `wait_for` call returns `no_timeout` only when `mNotified` holds and
`timeout` only while it does not (the predicate form of
`condition_variable::wait_for` reports a timeout exactly when the predicate is
still false when the deadline passes). -/
def cbEnabled (s : CBState) : CBEvent → Bool
  | .waitRet                       => s.mNotified
  | .waitForRet CvStatus.noTimeout => s.mNotified
  | .waitForRet CvStatus.timeout   => !s.mNotified
  | _                              => true

/-- Effect of one atomic event on the object state. -/
def cbStep (s : CBState) : CBEvent → CBState
  | .onFinish h w  => (on_finish h w s).2
  | .bindThread j  => (bind_thread j s).2
  | .joinThread    => join_thread s
  | .notifyEvt     => notify s
  | .waitRet       => join_thread_locked s
  | .waitForRet res => if res ≠ CvStatus.timeout then join_thread_locked s else s

/-- Run a sequence of events from a state. -/
def cbRun (s : CBState) (tr : List CBEvent) : CBState := tr.foldl cbStep s

/-- A trace is valid from `s` when every event is enabled in the state where
it occurs: this captures exactly the interleavings the mutex/condition pair
permits. -/
def cbValid (s : CBState) : List CBEvent → Bool
  | []      => true
  | e :: tr => cbEnabled s e && cbValid (cbStep s e) tr

theorem cbRun_nil (s : CBState) : cbRun s [] = s := rfl

theorem cbRun_cons (s : CBState) (e : CBEvent) (tr : List CBEvent) :
    cbRun s (e :: tr) = cbRun (cbStep s e) tr := rfl

theorem cbRun_append (s : CBState) (t u : List CBEvent) :
    cbRun s (t ++ u) = cbRun (cbRun s t) u := by
  induction t generalizing s with
  | nil => rfl
  | cons e t ih => simp [cbRun_cons, ih]

theorem cbValid_cons {s : CBState} {e : CBEvent} {tr : List CBEvent} :
    cbValid s (e :: tr) = (cbEnabled s e && cbValid (cbStep s e) tr) := rfl

theorem cbValid_append (s : CBState) (t u : List CBEvent) :
    cbValid s (t ++ u) = (cbValid s t && cbValid (cbRun s t) u) := by
  induction t generalizing s with
  | nil => simp [cbValid, cbRun_nil]
  | cons e t ih =>
      simp [cbValid_cons, cbRun_cons, ih, Bool.and_assoc]

theorem join_thread_locked_mNotified (s : CBState) :
    (join_thread_locked s).mNotified = s.mNotified := by
  unfold join_thread_locked; split <;> rfl

theorem join_thread_locked_mThreadBound (s : CBState) :
    (join_thread_locked s).mThreadBound = s.mThreadBound := by
  unfold join_thread_locked; split <;> rfl

theorem join_thread_locked_mPostWork (s : CBState) :
    (join_thread_locked s).mPostWork = s.mPostWork := by
  unfold join_thread_locked; split <;> rfl

theorem join_thread_locked_postWorkRuns (s : CBState) :
    (join_thread_locked s).postWorkRuns = s.postWorkRuns := by
  unfold join_thread_locked; split <;> rfl

theorem on_finish_snd_mThreadBound (h : Bool) (w : Nat) (s : CBState) :
    ((on_finish h w s).2).mThreadBound = s.mThreadBound := by
  unfold on_finish; split
  · rfl
  · split <;> rfl

theorem notify_mThreadBound (s : CBState) :
    (notify s).mThreadBound = s.mThreadBound := by
  unfold notify; cases s.mPostWork <;> rfl

/-- 1 if a state currently has a bound thread, 0 otherwise. -/
def boundFlag (s : CBState) : Nat := if s.mThreadBound then 1 else 0

/-- 1 if event `e` is a `bind_thread` call that succeeds in state `s`. -/
def bindCount1 (s : CBState) : CBEvent → Nat
  | CBEvent.bindThread j => if (bind_thread j s).1 then 1 else 0
  | _ => 0

/-- Number of successful `bind_thread` calls along a trace of events. -/
def succBinds (s : CBState) : List CBEvent → Nat
  | [] => 0
  | e :: tr => bindCount1 s e + succBinds (cbStep s e) tr

theorem bindCount1_boundFlag (s : CBState) (e : CBEvent) :
    bindCount1 s e + boundFlag s ≤ boundFlag (cbStep s e) := by
  cases e with
  | bindThread j =>
      show (if (bind_thread j s).1 then 1 else 0) + boundFlag s ≤
        boundFlag (bind_thread j s).2
      unfold bind_thread boundFlag
      by_cases hb : s.mThreadBound = true
      · simp [hb]
      · simp only [hb, if_false, Bool.not_eq_true] at *
        cases j <;> simp [hb]
  | onFinish a b =>
      show 0 + boundFlag s ≤ boundFlag (on_finish a b s).2
      rw [Nat.zero_add]
      unfold boundFlag
      rw [on_finish_snd_mThreadBound]
  | joinThread =>
      show 0 + boundFlag s ≤ boundFlag (join_thread s)
      rw [Nat.zero_add]
      unfold boundFlag join_thread
      rw [join_thread_locked_mThreadBound]
  | notifyEvt =>
      show 0 + boundFlag s ≤ boundFlag (notify s)
      rw [Nat.zero_add]
      unfold boundFlag
      rw [notify_mThreadBound]
  | waitRet =>
      show 0 + boundFlag s ≤ boundFlag (join_thread_locked s)
      rw [Nat.zero_add]
      unfold boundFlag
      rw [join_thread_locked_mThreadBound]
  | waitForRet res =>
      show 0 + boundFlag s ≤
        boundFlag (if res ≠ CvStatus.timeout then join_thread_locked s else s)
      rw [Nat.zero_add]
      have hpres : (if res ≠ CvStatus.timeout then join_thread_locked s else s).mThreadBound
          = s.mThreadBound := by
        split
        · exact join_thread_locked_mThreadBound s
        · rfl
      unfold boundFlag
      rw [hpres]

theorem succBinds_boundFlag_le (tr : List CBEvent) :
    ∀ s : CBState, succBinds s tr + boundFlag s ≤ 1 := by
  induction tr with
  | nil =>
      intro s
      show 0 + boundFlag s ≤ 1
      unfold boundFlag
      split <;> omega
  | cons e tr ih =>
      intro s
      show bindCount1 s e + succBinds (cbStep s e) tr + boundFlag s ≤ 1
      have h1 := bindCount1_boundFlag s e
      have h2 := ih (cbStep s e)
      omega

/-- `true` when every `wait()` return and every `wait_for` return with result
`no_timeout` along the trace happens in a state where the deferred work has
already run exactly once (so the work has fully returned before the waiter
unblocks). -/
def waitsSeeRun (s : CBState) : List CBEvent → Bool
  | [] => true
  | e :: tr =>
      decide ((e = CBEvent.waitRet ∨ e = CBEvent.waitForRet CvStatus.noTimeout) →
        s.postWorkRuns = 1) && waitsSeeRun (cbStep s e) tr

theorem waitsSeeRun_append (s : CBState) (t u : List CBEvent) :
    waitsSeeRun s (t ++ u) = (waitsSeeRun s t && waitsSeeRun (cbRun s t) u) := by
  induction t generalizing s with
  | nil => simp [waitsSeeRun, cbRun_nil]
  | cons e t ih =>
      show (decide _ && waitsSeeRun (cbStep s e) (t ++ u))
        = ((decide _ && waitsSeeRun (cbStep s e) t) && _)
      rw [ih, cbRun_cons, Bool.and_assoc]

theorem on_finish_true_mPostWork (hT : Bool) (w : Nat) (s : CBState)
    (hs : (on_finish hT w s).1 = true) : (on_finish hT w s).2.mPostWork = some w := by
  cases h1 : s.mPostWork.isSome with
  | true => simp [on_finish, h1] at hs
  | false =>
      cases hT with
      | false => simp [on_finish, h1] at hs
      | true => simp [on_finish, h1]

theorem notify_mNotified (s : CBState) : (notify s).mNotified = true := by
  unfold notify; cases s.mPostWork <;> rfl

theorem notify_postWorkRuns_of_isSome (s : CBState) (h : s.mPostWork.isSome = true) :
    (notify s).postWorkRuns = s.postWorkRuns + 1 := by
  unfold notify
  cases hp : s.mPostWork with
  | none => rw [hp] at h; simp at h
  | some w => simp

/-- Every event other than the completion flip preserves `mNotified` and the
deferred-work run counter, and never unregisters a bound deferred-work item. -/
theorem cbStep_quiet (s : CBState) (e : CBEvent) (hne : e ≠ CBEvent.notifyEvt) :
    (cbStep s e).mNotified = s.mNotified ∧
    (cbStep s e).postWorkRuns = s.postWorkRuns ∧
    (s.mPostWork.isSome = true → (cbStep s e).mPostWork.isSome = true) := by
  cases e with
  | notifyEvt => exact absurd rfl hne
  | onFinish a b =>
      have h2 : cbStep s (CBEvent.onFinish a b) = (on_finish a b s).2 := rfl
      rw [h2]
      cases h1 : s.mPostWork.isSome with
      | true => cases a <;> simp [on_finish, h1]
      | false => cases a <;> simp [on_finish, h1]
  | bindThread j =>
      have h2 : cbStep s (CBEvent.bindThread j) = (bind_thread j s).2 := rfl
      rw [h2]
      cases hb : s.mThreadBound <;> cases j <;> simp [bind_thread, hb]
  | joinThread =>
      exact ⟨join_thread_locked_mNotified s, join_thread_locked_postWorkRuns s,
        fun h => by rw [show (cbStep s CBEvent.joinThread).mPostWork = s.mPostWork from
          join_thread_locked_mPostWork s]; exact h⟩
  | waitRet =>
      exact ⟨join_thread_locked_mNotified s, join_thread_locked_postWorkRuns s,
        fun h => by rw [show (cbStep s CBEvent.waitRet).mPostWork = s.mPostWork from
          join_thread_locked_mPostWork s]; exact h⟩
  | waitForRet res =>
      cases res with
      | noTimeout =>
          have h2 : cbStep s (CBEvent.waitForRet CvStatus.noTimeout)
              = join_thread_locked s := by
            show (if CvStatus.noTimeout ≠ CvStatus.timeout then join_thread_locked s else s)
              = join_thread_locked s
            simp
          rw [h2]
          exact ⟨join_thread_locked_mNotified s, join_thread_locked_postWorkRuns s,
            fun h => by rw [join_thread_locked_mPostWork]; exact h⟩
      | timeout =>
          have h2 : cbStep s (CBEvent.waitForRet CvStatus.timeout) = s := by
            show (if CvStatus.timeout ≠ CvStatus.timeout then join_thread_locked s else s) = s
            simp
          rw [h2]
          exact ⟨rfl, rfl, fun h => h⟩

/-- Before the flip, a valid trace contains no wait returns, preserves the
not-notified state and the run counter, and keeps any registered deferred
work registered. -/
theorem quiet_phase (p : List CBEvent) :
    ∀ s : CBState, cbValid s p = true → s.mNotified = false →
      CBEvent.notifyEvt ∉ p →
      waitsSeeRun s p = true ∧
      (cbRun s p).mNotified = false ∧
      (cbRun s p).postWorkRuns = s.postWorkRuns ∧
      (s.mPostWork.isSome = true → (cbRun s p).mPostWork.isSome = true) := by
  induction p with
  | nil => intro s _ hn _; exact ⟨rfl, hn, rfl, fun h => h⟩
  | cons e p ih =>
      intro s hv hn hmem
      have hne : e ≠ CBEvent.notifyEvt := by
        intro h; exact hmem (by rw [h]; exact List.mem_cons_self _ _)
      have hmem' : CBEvent.notifyEvt ∉ p := fun h => hmem (List.mem_cons_of_mem _ h)
      rw [cbValid_cons, Bool.and_eq_true] at hv
      obtain ⟨hen, hv'⟩ := hv
      have hnw : e ≠ CBEvent.waitRet := by
        intro h; subst h; rw [show cbEnabled s CBEvent.waitRet = s.mNotified from rfl, hn] at hen
        exact Bool.false_ne_true hen
      have hnwf : e ≠ CBEvent.waitForRet CvStatus.noTimeout := by
        intro h; subst h
        rw [show cbEnabled s (CBEvent.waitForRet CvStatus.noTimeout) = s.mNotified from rfl,
          hn] at hen
        exact Bool.false_ne_true hen
      obtain ⟨hq1, hq2, hq3⟩ := cbStep_quiet s e hne
      have hrec := ih (cbStep s e) hv' (by rw [hq1]; exact hn) hmem'
      refine ⟨?_, ?_, ?_, ?_⟩
      · show (decide _ && waitsSeeRun (cbStep s e) p) = true
        rw [Bool.and_eq_true, decide_eq_true_eq]
        exact ⟨fun h => absurd h (by rintro (h | h) <;> [exact hnw h; exact hnwf h]),
          hrec.1⟩
      · rw [cbRun_cons]; exact hrec.2.1
      · rw [cbRun_cons, hrec.2.2.1]; exact hq2
      · intro h; rw [cbRun_cons]; exact hrec.2.2.2 (hq3 h)

/-- After the flip, a flip-free suffix keeps the run counter at 1, so every
wait return in it observes the deferred work completed exactly once. -/
theorem notified_phase (q : List CBEvent) :
    ∀ s : CBState, CBEvent.notifyEvt ∉ q → s.postWorkRuns = 1 →
      waitsSeeRun s q = true ∧ (cbRun s q).postWorkRuns = 1 := by
  induction q with
  | nil => intro s _ hr; exact ⟨rfl, hr⟩
  | cons e q ih =>
      intro s hmem hr
      have hne : e ≠ CBEvent.notifyEvt := by
        intro h; exact hmem (by rw [h]; exact List.mem_cons_self _ _)
      have hmem' : CBEvent.notifyEvt ∉ q := fun h => hmem (List.mem_cons_of_mem _ h)
      obtain ⟨_, hq2, _⟩ := cbStep_quiet s e hne
      have hrec := ih (cbStep s e) hmem' (by rw [hq2]; exact hr)
      refine ⟨?_, ?_⟩
      · show (decide _ && waitsSeeRun (cbStep s e) q) = true
        rw [Bool.and_eq_true, decide_eq_true_eq]
        exact ⟨fun _ => hr, hrec.1⟩
      · rw [cbRun_cons]; exact hrec.2

theorem waitsSeeRun_singleton_nonwait (s : CBState) (e : CBEvent)
    (h1 : e ≠ CBEvent.waitRet) (h2 : e ≠ CBEvent.waitForRet CvStatus.noTimeout) :
    waitsSeeRun s [e] = true := by
  show (decide _ && true) = true
  rw [Bool.and_true, decide_eq_true_eq]
  rintro (h | h)
  · exact (h1 h).elim
  · exact (h2 h).elim

/-- C2: for every interleaving — every valid serialized event trace containing
a single completion flip — in which `on_finish` succeeded before the flip, the
deferred work has been run exactly once by the time of the flip, and every
`wait()` return and every `wait_for` return with result `no_timeout` happens
in a state where the work has run exactly once (so the work fully returned
before those calls return); a `wait_for` returning `timeout`, in contrast, can
occur before the work has run at all. -/
theorem deferred_work_before_wait_returns (p1 p2 q : List CBEvent) (workId : Nat)
    (hv : cbValid initCB
      (p1 ++ [CBEvent.onFinish true workId] ++ p2 ++ [CBEvent.notifyEvt] ++ q) = true)
    (hp1 : CBEvent.notifyEvt ∉ p1) (hp2 : CBEvent.notifyEvt ∉ p2)
    (hq : CBEvent.notifyEvt ∉ q)
    (hreg : (on_finish true workId (cbRun initCB p1)).1 = true) :
    waitsSeeRun initCB
      (p1 ++ [CBEvent.onFinish true workId] ++ p2 ++ [CBEvent.notifyEvt] ++ q) = true ∧
    (cbRun initCB
      (p1 ++ [CBEvent.onFinish true workId] ++ p2 ++ [CBEvent.notifyEvt] ++ q)).postWorkRuns
        = 1 ∧
    (cbValid initCB
        [CBEvent.onFinish true 0, CBEvent.waitForRet CvStatus.timeout, CBEvent.notifyEvt]
          = true ∧
      (cbRun initCB [CBEvent.onFinish true 0]).postWorkRuns = 0) := by
  rw [cbValid_append, Bool.and_eq_true] at hv
  obtain ⟨hvA, hvq⟩ := hv
  rw [cbValid_append, Bool.and_eq_true] at hvA
  obtain ⟨hvB, hvE2⟩ := hvA
  rw [cbValid_append, Bool.and_eq_true] at hvB
  obtain ⟨hvC, hvP2⟩ := hvB
  rw [cbValid_append, Bool.and_eq_true] at hvC
  obtain ⟨hvP1, _⟩ := hvC
  obtain ⟨w1, n0, r0, _⟩ := quiet_phase p1 initCB hvP1 rfl hp1
  have hE1 : cbRun initCB (p1 ++ [CBEvent.onFinish true workId])
      = cbStep (cbRun initCB p1) (CBEvent.onFinish true workId) := by
    rw [cbRun_append]; rfl
  obtain ⟨q1, q2, _⟩ :=
    cbStep_quiet (cbRun initCB p1) (CBEvent.onFinish true workId) (by intro h; cases h)
  have hsome1 : (cbStep (cbRun initCB p1) (CBEvent.onFinish true workId)).mPostWork.isSome
      = true := by
    have h := on_finish_true_mPostWork true workId (cbRun initCB p1) hreg
    show ((on_finish true workId (cbRun initCB p1)).2).mPostWork.isSome = true
    rw [h]; rfl
  rw [hE1] at hvP2
  obtain ⟨w2, n2, r2, mono2⟩ :=
    quiet_phase p2 (cbStep (cbRun initCB p1) (CBEvent.onFinish true workId)) hvP2
      (by rw [q1]; exact n0) hp2
  have hE2 : cbRun initCB (p1 ++ [CBEvent.onFinish true workId] ++ p2)
      = cbRun (cbStep (cbRun initCB p1) (CBEvent.onFinish true workId)) p2 := by
    rw [cbRun_append, hE1]
  have hruns2 :
      (cbRun (cbStep (cbRun initCB p1) (CBEvent.onFinish true workId)) p2).postWorkRuns
        = 0 := by
    rw [r2, q2, r0]; rfl
  have hE3 : cbRun initCB (p1 ++ [CBEvent.onFinish true workId] ++ p2 ++ [CBEvent.notifyEvt])
      = notify (cbRun (cbStep (cbRun initCB p1) (CBEvent.onFinish true workId)) p2) := by
    rw [cbRun_append, hE2]; rfl
  have hruns3 :
      (notify (cbRun (cbStep (cbRun initCB p1) (CBEvent.onFinish true workId)) p2)).postWorkRuns
        = 1 := by
    rw [notify_postWorkRuns_of_isSome _ (mono2 hsome1), hruns2]
  obtain ⟨w3, rfin⟩ := notified_phase q
    (notify (cbRun (cbStep (cbRun initCB p1) (CBEvent.onFinish true workId)) p2)) hq hruns3
  refine ⟨?_, ?_, by decide, by decide⟩
  · rw [waitsSeeRun_append initCB
        (p1 ++ [CBEvent.onFinish true workId] ++ p2 ++ [CBEvent.notifyEvt]) q,
      waitsSeeRun_append initCB (p1 ++ [CBEvent.onFinish true workId] ++ p2)
        [CBEvent.notifyEvt],
      waitsSeeRun_append initCB (p1 ++ [CBEvent.onFinish true workId]) p2,
      waitsSeeRun_append initCB p1 [CBEvent.onFinish true workId],
      hE1, hE2, hE3]
    rw [Bool.and_eq_true, Bool.and_eq_true, Bool.and_eq_true, Bool.and_eq_true]
    exact ⟨⟨⟨⟨w1, waitsSeeRun_singleton_nonwait _ _ (by intro h; cases h) (by intro h; cases h)⟩,
      w2⟩, waitsSeeRun_singleton_nonwait _ _ (by intro h; cases h) (by intro h; cases h)⟩, w3⟩
  · rw [cbRun_append initCB
        (p1 ++ [CBEvent.onFinish true workId] ++ p2 ++ [CBEvent.notifyEvt]) q, hE3]
    exact rfin

/-- Witness: in the trace register-then-notify-then-wait, the single `wait`
return observes the deferred work completed; a trace whose `wait_for` times out
before the flip is valid while the work has not yet run. -/
theorem deferred_work_before_wait_returns_witness :
    waitsSeeRun initCB [CBEvent.onFinish true 0, CBEvent.notifyEvt, CBEvent.waitRet] = true ∧
    (cbRun initCB [CBEvent.onFinish true 0, CBEvent.notifyEvt,
      CBEvent.waitRet]).postWorkRuns = 1 ∧
    (cbValid initCB
        [CBEvent.onFinish true 0, CBEvent.waitForRet CvStatus.timeout, CBEvent.notifyEvt]
          = true ∧
      (cbRun initCB [CBEvent.onFinish true 0]).postWorkRuns = 0) :=
  deferred_work_before_wait_returns [] [] [CBEvent.waitRet] 0 (by decide) (by decide)
    (by decide) (by decide) (by decide)

/-- C1: `CallbackBase::wait_for(d)` returns `std::cv_status::no_timeout` when
`notify` flipped the object strictly before the duration expired, and
`std::cv_status::timeout` when the flip never occurred or did not occur before
the expiry; after a `no_timeout` ("completed") return the object is notified,
so a subsequent `getStatus` (which starts with `wait()`) returns immediately
without blocking.  `hcoh` records that the condition variable reports success
only when the waited-on predicate `mNotified` was actually observed true. -/
theorem wait_for_timeout_contract (flipTime : Option Nat) (callTime dur : Nat)
    (s : CBState)
    (hcoh : flipBeforeDeadline flipTime callTime dur = true → s.mNotified = true) :
    ((∃ tf, flipTime = some tf ∧ tf < callTime + dur) →
      (wait_for flipTime callTime dur s).1 = CvStatus.noTimeout) ∧
    ((∀ tf, flipTime = some tf → callTime + dur ≤ tf) →
      (wait_for flipTime callTime dur s).1 = CvStatus.timeout) ∧
    ((wait_for flipTime callTime dur s).1 = CvStatus.noTimeout →
      waitBlocks ((wait_for flipTime callTime dur s).2) = false) := by
  refine ⟨?_, ?_, ?_⟩
  · rintro ⟨tf, hft, hlt⟩
    have hflip : flipBeforeDeadline flipTime callTime dur = true := by
      rw [hft]; simpa [flipBeforeDeadline] using hlt
    simp [wait_for, hflip]
  · intro hlate
    have hflip : flipBeforeDeadline flipTime callTime dur = false := by
      cases hft : flipTime with
      | none => rfl
      | some tf =>
          have h := hlate tf hft
          simp only [flipBeforeDeadline, decide_eq_false_iff_not]
          omega
    simp [wait_for, hflip]
  · intro hnt
    cases hflip : flipBeforeDeadline flipTime callTime dur with
    | false => simp [wait_for, hflip] at hnt
    | true =>
        have hs := hcoh hflip
        simp [wait_for, hflip, waitBlocks, join_thread_locked_mNotified, hs]

/-- Witness: a flip at time 2 observed by a `wait_for` entered at time 0 with
duration 5 yields `no_timeout`. -/
theorem wait_for_timeout_contract_witness :
    (wait_for (some 2) 0 5 { initCB with mNotified := true }).1 = CvStatus.noTimeout :=
  (wait_for_timeout_contract (some 2) 0 5 { initCB with mNotified := true }
    (fun _ => rfl)).1 ⟨2, rfl, by decide⟩

/-- C5: on a `wait_for` call with a bound, not-yet-joined thread, the thread
is reclaimed (joined) iff the call returns other than `timeout`: a non-timeout
return runs `join_thread_locked`, while on the timeout path the state — hence
the thread handle — is returned unchanged, and a later `join_thread` still
reclaims the thread. -/
theorem wait_for_thread_reclaim (flipTime : Option Nat) (callTime dur : Nat)
    (s : CBState) (hb : s.mThreadBound = true) (hj : s.mThreadJoined = false) :
    ((wait_for flipTime callTime dur s).1 ≠ CvStatus.timeout →
      ((wait_for flipTime callTime dur s).2).mThreadJoined = true) ∧
    ((wait_for flipTime callTime dur s).1 = CvStatus.timeout →
      (wait_for flipTime callTime dur s).2 = s ∧
      (join_thread ((wait_for flipTime callTime dur s).2)).mThreadJoined = true) := by
  cases hflip : flipBeforeDeadline flipTime callTime dur with
  | true =>
      constructor
      · intro _
        simp [wait_for, hflip, join_thread_locked, hb, hj]
      · intro h
        simp [wait_for, hflip] at h
  | false =>
      constructor
      · intro h
        simp [wait_for, hflip] at h
      · intro _
        refine ⟨by simp [wait_for, hflip], ?_⟩
        simp [wait_for, hflip, join_thread, join_thread_locked, hb, hj]

/-- Witness: with no flip, `wait_for` times out leaving the bound thread in
place, and a later `join_thread` reclaims it. -/
theorem wait_for_thread_reclaim_witness :
    (wait_for none 0 5 { initCB with mThreadBound := true }).2
      = { initCB with mThreadBound := true } ∧
    (join_thread ((wait_for none 0 5 { initCB with mThreadBound := true }).2)).mThreadJoined
      = true :=
  (wait_for_thread_reclaim none 0 5 { initCB with mThreadBound := true } rfl rfl).2 rfl

/-- C7: `CallbackBase::on_finish` returns false — registering nothing and
leaving the stored deferred work unchanged — whenever the supplied function
has no target or a deferred work item was already registered; otherwise it
registers the work and returns true. -/
theorem on_finish_contract (hasTarget : Bool) (workId : Nat) (s : CBState) :
    ((hasTarget = false ∨ s.mPostWork.isSome = true) →
      on_finish hasTarget workId s = (false, s)) ∧
    (hasTarget = true → s.mPostWork = none →
      on_finish hasTarget workId s = (true, { s with mPostWork := some workId })) := by
  constructor
  · rintro (h | h) <;> simp [on_finish, h]
  · intro h1 h2
    simp [on_finish, h1, h2]

/-- Witness: `on_finish` rejects an empty function and accepts a first
registration. -/
theorem on_finish_contract_witness :
    on_finish false 0 initCB = (false, initCB) ∧
    on_finish true 5 initCB = (true, { initCB with mPostWork := some 5 }) :=
  ⟨(on_finish_contract false 0 initCB).1 (Or.inl rfl),
   (on_finish_contract true 5 initCB).2 rfl rfl⟩

/-- C8: `CallbackBase::bind_thread` fails (returns false with the state, and
hence the thread ownership, unchanged) whenever a thread is already bound or
the supplied thread is not joinable, and otherwise attaches the thread and
returns true; consequently, along every event trace from the initial state at
most one `bind_thread` call ever succeeds, so at most one thread is ever bound
over the object's lifetime. -/
theorem bind_thread_contract :
    (∀ (joinable : Bool) (s : CBState),
      (s.mThreadBound = true → bind_thread joinable s = (false, s)) ∧
      (joinable = false → bind_thread joinable s = (false, s)) ∧
      (s.mThreadBound = false → joinable = true →
        bind_thread joinable s =
          (true, { s with mThreadBound := true, mThreadJoined := false }))) ∧
    (∀ tr : List CBEvent, succBinds initCB tr ≤ 1) := by
  constructor
  · intro joinable s
    refine ⟨?_, ?_, ?_⟩
    · intro h; simp [bind_thread, h]
    · intro h; simp [bind_thread, h]
    · intro h1 h2; simp [bind_thread, h1, h2]
  · intro tr
    have h := succBinds_boundFlag_le tr initCB
    have h0 : boundFlag initCB = 0 := rfl
    omega

/-- Witness: a first bind of a joinable thread succeeds, and a trace that
attempts two binds records at most one success. -/
theorem bind_thread_contract_witness :
    bind_thread true initCB
      = (true, { initCB with mThreadBound := true, mThreadJoined := false }) ∧
    succBinds initCB [CBEvent.bindThread true, CBEvent.bindThread true] ≤ 1 :=
  ⟨(bind_thread_contract.1 true initCB).2.2 rfl rfl,
   bind_thread_contract.2 [CBEvent.bindThread true, CBEvent.bindThread true]⟩

/-- State of a `PreparedModelCallback` (`Callbacks.h` lines 194-254): the base
synchronization state plus the stored error status and prepared-model
reference.  The `sp<V1_0::IPreparedModel>` is abstracted by an optional
identifier, `none` standing for the null reference. -/
structure PMState where
  base : CBState
  mErrorStatus : ErrorStatus
  mPreparedModel : Option Nat
deriving Repr, DecidableEq

/-- Modelled from the spec: a `PreparedModelCallback` is "created pending"
before the prepare request is dispatched, with a failure status and null
model until it is completed. -/
def initPM : PMState :=
  { base := initCB, mErrorStatus := ErrorStatus.GENERAL_FAILURE, mPreparedModel := none }

/-- Modelled from the spec: `PreparedModelCallback::notify` (body not among
the provided sources) "stores status and artifact, then calls the base
notify()". -/
def PMState.notify1_0 (st : ErrorStatus) (pm : Option Nat) (s : PMState) : PMState :=
  { s with mErrorStatus := st, mPreparedModel := pm, base := notify s.base }

/-- Modelled from the spec: `PreparedModelCallback::notify_1_2` (body not
among the provided sources) stores the same two-tuple through the same path
as `notify`. -/
def PMState.notify1_2 (st : ErrorStatus) (pm : Option Nat) (s : PMState) : PMState :=
  { s with mErrorStatus := st, mPreparedModel := pm, base := notify s.base }

/-- One atomic critical section on a `PreparedModelCallback` object:
the two completion entry points, a `getStatus`/`getPreparedModel` call
returning (each begins with `wait()`, so it is gated on the flip and reclaims
the bound thread), or any base-class event. -/
inductive PMEvent where
  | notify1_0 (st : ErrorStatus) (pm : Option Nat) : PMEvent
  | notify1_2 (st : ErrorStatus) (pm : Option Nat) : PMEvent
  | getStatusRet : PMEvent
  | getModelRet : PMEvent
  | baseEvt (e : CBEvent) : PMEvent
deriving Repr, DecidableEq

def pmEnabled (s : PMState) : PMEvent → Bool
  | PMEvent.getStatusRet => s.base.mNotified
  | PMEvent.getModelRet  => s.base.mNotified
  | PMEvent.baseEvt e    => cbEnabled s.base e
  | _                    => true

def pmStep (s : PMState) : PMEvent → PMState
  | PMEvent.notify1_0 st pm => PMState.notify1_0 st pm s
  | PMEvent.notify1_2 st pm => PMState.notify1_2 st pm s
  | PMEvent.getStatusRet    => { s with base := join_thread_locked s.base }
  | PMEvent.getModelRet     => { s with base := join_thread_locked s.base }
  | PMEvent.baseEvt e       => { s with base := cbStep s.base e }

def pmRun (s : PMState) (tr : List PMEvent) : PMState := tr.foldl pmStep s

def pmValid (s : PMState) : List PMEvent → Bool
  | []      => true
  | e :: tr => pmEnabled s e && pmValid (pmStep s e) tr

/-- Whether an event is one of the two completion entry points. -/
def isCompletion : PMEvent → Bool
  | PMEvent.notify1_0 _ _ => true
  | PMEvent.notify1_2 _ _ => true
  | _                     => false

theorem pmRun_cons (s : PMState) (e : PMEvent) (tr : List PMEvent) :
    pmRun s (e :: tr) = pmRun (pmStep s e) tr := rfl

theorem pmRun_append (s : PMState) (t u : List PMEvent) :
    pmRun s (t ++ u) = pmRun (pmRun s t) u := by
  induction t generalizing s with
  | nil => rfl
  | cons e t ih => simp [pmRun_cons, ih]

/-- `true` when every `getStatus` return along the trace reads `st` and every
`getPreparedModel` return reads `pm`. -/
def pmReadsAgree (st : ErrorStatus) (pm : Option Nat) (s : PMState) :
    List PMEvent → Bool
  | [] => true
  | e :: tr =>
      decide (e = PMEvent.getStatusRet → s.mErrorStatus = st) &&
      decide (e = PMEvent.getModelRet → s.mPreparedModel = pm) &&
      pmReadsAgree st pm (pmStep s e) tr

theorem pmStep_preserves_fields (s : PMState) (e : PMEvent)
    (h : isCompletion e = false) :
    (pmStep s e).mErrorStatus = s.mErrorStatus ∧
    (pmStep s e).mPreparedModel = s.mPreparedModel := by
  cases e with
  | notify1_0 a b => simp [isCompletion] at h
  | notify1_2 a b => simp [isCompletion] at h
  | getStatusRet => exact ⟨rfl, rfl⟩
  | getModelRet => exact ⟨rfl, rfl⟩
  | baseEvt e => exact ⟨rfl, rfl⟩

/-- Along a completion-free suffix, the stored status and model never change,
so every read returns the stored pair. -/
theorem pm_fields_stable (q : List PMEvent) :
    ∀ (s : PMState) (st : ErrorStatus) (pm : Option Nat),
      (∀ e ∈ q, isCompletion e = false) →
      s.mErrorStatus = st → s.mPreparedModel = pm →
      pmReadsAgree st pm s q = true ∧
      (pmRun s q).mErrorStatus = st ∧ (pmRun s q).mPreparedModel = pm := by
  induction q with
  | nil => intro s st pm _ h1 h2; exact ⟨rfl, h1, h2⟩
  | cons e q ih =>
      intro s st pm hnc h1 h2
      have he : isCompletion e = false := hnc e (List.mem_cons_self _ _)
      have hq : ∀ x ∈ q, isCompletion x = false :=
        fun x hx => hnc x (List.mem_cons_of_mem _ hx)
      obtain ⟨f1, f2⟩ := pmStep_preserves_fields s e he
      have hrec := ih (pmStep s e) st pm hq (by rw [f1]; exact h1) (by rw [f2]; exact h2)
      refine ⟨?_, ?_, ?_⟩
      · show (decide _ && decide _ && pmReadsAgree st pm (pmStep s e) q) = true
        rw [Bool.and_eq_true, Bool.and_eq_true, decide_eq_true_eq, decide_eq_true_eq]
        exact ⟨⟨fun _ => h1, fun _ => h2⟩, hrec.1⟩
      · rw [pmRun_cons]; exact hrec.2.1
      · rw [pmRun_cons]; exact hrec.2.2

/-- C3: once a `PreparedModelCallback` has been completed by a single call to
`notify` or `notify_1_2` with `(st, pm)`, every subsequent `getStatus` return
reads exactly `st` and every subsequent `getPreparedModel` return reads
exactly `pm`, along every valid continuation (any thread, any number of
times), and the stored fields remain `(st, pm)` forever. -/
theorem prepared_model_reads_stable (p q : List PMEvent) (st : ErrorStatus)
    (pm : Option Nat) (c : PMEvent)
    (hc : c = PMEvent.notify1_0 st pm ∨ c = PMEvent.notify1_2 st pm)
    (_hv : pmValid initPM (p ++ [c] ++ q) = true)
    (_hpfree : ∀ e ∈ p, isCompletion e = false)
    (hq : ∀ e ∈ q, isCompletion e = false) :
    pmReadsAgree st pm (pmRun initPM (p ++ [c])) q = true ∧
    (pmRun initPM (p ++ [c] ++ q)).mErrorStatus = st ∧
    (pmRun initPM (p ++ [c] ++ q)).mPreparedModel = pm := by
  have hfields : (pmRun initPM (p ++ [c])).mErrorStatus = st ∧
      (pmRun initPM (p ++ [c])).mPreparedModel = pm := by
    rw [pmRun_append initPM p [c]]
    cases hc with
    | inl h => subst h; exact ⟨rfl, rfl⟩
    | inr h => subst h; exact ⟨rfl, rfl⟩
  obtain ⟨hrA, hrB, hrC⟩ :=
    pm_fields_stable q (pmRun initPM (p ++ [c])) st pm hq hfields.1 hfields.2
  refine ⟨hrA, ?_, ?_⟩
  · rw [pmRun_append initPM (p ++ [c]) q]; exact hrB
  · rw [pmRun_append initPM (p ++ [c]) q]; exact hrC

/-- Witness: the spec scenario — complete with `(GENERAL_FAILURE, null)`, then
read status and model twice each. -/
theorem prepared_model_reads_stable_witness :
    pmReadsAgree ErrorStatus.GENERAL_FAILURE none
      (pmRun initPM [PMEvent.notify1_0 ErrorStatus.GENERAL_FAILURE none])
      [PMEvent.getStatusRet, PMEvent.getModelRet, PMEvent.getStatusRet,
        PMEvent.getModelRet] = true ∧
    (pmRun initPM ([PMEvent.notify1_0 ErrorStatus.GENERAL_FAILURE none] ++
      [PMEvent.getStatusRet, PMEvent.getModelRet, PMEvent.getStatusRet,
        PMEvent.getModelRet])).mErrorStatus = ErrorStatus.GENERAL_FAILURE ∧
    (pmRun initPM ([PMEvent.notify1_0 ErrorStatus.GENERAL_FAILURE none] ++
      [PMEvent.getStatusRet, PMEvent.getModelRet, PMEvent.getStatusRet,
        PMEvent.getModelRet])).mPreparedModel = none :=
  prepared_model_reads_stable [] [PMEvent.getStatusRet, PMEvent.getModelRet,
    PMEvent.getStatusRet, PMEvent.getModelRet] ErrorStatus.GENERAL_FAILURE none
    (PMEvent.notify1_0 ErrorStatus.GENERAL_FAILURE none) (Or.inl rfl) (by decide)
    (by decide) (by decide)

/-- An `OutputShape` of the 1.2 HAL: the actual dimensions of one output
operand and whether the caller-provided buffer was large enough. -/
structure OutputShape where
  dimensions : List Nat
  isSufficient : Bool
deriving Repr, DecidableEq

/-- State of an `ExecutionCallback` (`Callbacks.h` lines 270-374): the base
synchronization state plus the stored status, output shapes, and the optional
finish transform `mOnFinish`. -/
structure ExecState where
  base : CBState
  mErrorStatus : ErrorStatus
  mOutputShapes : List OutputShape
  mOnFinish : Option (ErrorStatus → ErrorStatus)

/-- `ExecutionCallback::setOnFinish` (`Callbacks.h` line 368): stores the
finish transform into `mOnFinish`. -/
def ExecState.setOnFinish (f : ErrorStatus → ErrorStatus) (s : ExecState) : ExecState :=
  { s with mOnFinish := some f }

/-- Modelled from the spec: `ExecutionCallback::notify_1_2` (body not among
the provided sources): "If a `finishTransform` was registered, it is applied
to `status` before storage; the transformed value is what gets stored and what
`getStatus()` subsequently returns"; the output shapes are stored
untransformed; then the base `notify()` runs. -/
def ExecState.notify_1_2 (st : ErrorStatus) (shapes : List OutputShape)
    (s : ExecState) : ExecState :=
  { s with
    mErrorStatus := match s.mOnFinish with
      | some f => f st
      | none   => st,
    mOutputShapes := shapes,
    base := notify s.base }

/-- The two-argument `ExecutionCallback::notify` overload (`Callbacks.h` lines
323-326), whose body is `return notify_1_2(status, outputShapes);`. -/
def ExecState.notifyOverload (st : ErrorStatus) (shapes : List OutputShape)
    (s : ExecState) : ExecState :=
  ExecState.notify_1_2 st shapes s

/-- The value an `ExecutionCallback::getStatus` call returns once it has been
released: the stored `mErrorStatus`. -/
def ExecState.getStatusResult (s : ExecState) : ErrorStatus := s.mErrorStatus

/-- The value an `ExecutionCallback::getOutputShapes` call returns once it has
been released: the stored `mOutputShapes`. -/
def ExecState.getOutputShapesResult (s : ExecState) : List OutputShape :=
  s.mOutputShapes

/-- C4: when `setOnFinish t` was called before completion, completing the
`ExecutionCallback` with `(st, shapes)` stores — and `getStatus` subsequently
returns — the transformed value `t st` rather than the raw incoming status,
while `getOutputShapes` still returns the untransformed `shapes`. -/
theorem exec_finish_transform (t : ErrorStatus → ErrorStatus) (st : ErrorStatus)
    (shapes : List OutputShape) (s : ExecState) :
    ExecState.getStatusResult
        (ExecState.notify_1_2 st shapes (ExecState.setOnFinish t s)) = t st ∧
    ExecState.getOutputShapesResult
        (ExecState.notify_1_2 st shapes (ExecState.setOnFinish t s)) = shapes :=
  ⟨rfl, rfl⟩

/-- C6: the two-argument `ExecutionCallback::notify` overload has exactly the
same effect as `notify_1_2` for every status, output-shape vector, and
state. -/
theorem exec_notify_overload_equiv (st : ErrorStatus) (shapes : List OutputShape)
    (s : ExecState) :
    ExecState.notifyOverload st shapes s = ExecState.notify_1_2 st shapes s := rfl

/-! ## `stridedSliceGeneric` (`src/nn/common/operations/StridedSlice.cpp`) -/

/-- The NNAPI operand types relevant to `stridedSliceGeneric`'s dispatch. -/
inductive OperandType where
  | FLOAT32             : OperandType
  | INT32               : OperandType
  | UINT32              : OperandType
  | TENSOR_FLOAT32      : OperandType
  | TENSOR_INT32        : OperandType
  | TENSOR_QUANT8_ASYMM : OperandType
deriving Repr, DecidableEq

/-- A tensor `Shape`: operand type plus dimension sizes
(`getNumberOfDimensions` is the length, `getSizeOfDimension` indexes it). -/
structure Shape where
  type : OperandType
  dimensions : List Nat
deriving Repr, DecidableEq

/-- The inputs of `stridedSliceGeneric` other than the raw data buffers:
input shape, begin/end index arrays, the two masks (as 32-bit patterns, bit
`idx` governing dimension `idx`) and the strides array. -/
structure SliceParams where
  inputShape : Shape
  beginData : List Int
  beginMask : Nat
  endData : List Int
  endMask : Nat
  stridesData : List Int
deriving Repr, DecidableEq

/-- The arguments with which `stridedSliceGeneric` invokes
`tflite::reference_ops::StridedSlice` (src lines 71-84): the bit-reversed
masks, the accumulated starts/stops/strides vectors, and which of the two
element-type instantiations runs (`quant8 = true` for `TENSOR_QUANT8_ASYMM`). -/
structure SliceCall where
  beginMaskRev : Nat
  endMaskRev : Nat
  starts : List Int
  stops : List Int
  strides : List Int
  quant8 : Bool
deriving Repr, DecidableEq

/-- Modelled from the spec: `ReverseMaskBits(mask, numBits)` (defined outside
the provided sources) reverses the order of the low `numBits` bits of the
mask: bit `i` of the result is bit `numBits - 1 - i` of the input. -/
def reverseMaskBits (mask : Nat) (numBits : Nat) : Nat :=
  (List.range numBits).foldl
    (fun acc i => acc + (if mask.testBit (numBits - 1 - i) then 2 ^ i else 0)) 0

/-- `stridesData[idx]` (out-of-range reads default to 0, which the nonzero
check rejects). -/
def strideAt (P : SliceParams) (idx : Nat) : Int := P.stridesData.getD idx 0

/-- The begin bound for dimension `idx` (src lines 50-52): 0 (positive
stride) or `dim - 1` (negative stride) when bit `idx` of `beginMask` is set,
`ClampedIndex(beginData[idx], dim, positiveStride)` otherwise.  `ci` abstracts
the `ClampedIndex` helper, defined outside the provided sources. -/
def beginAt (P : SliceParams) (ci : Int → Int → Bool → Int) (idx : Nat) : Int :=
  let dim : Int := (P.inputShape.dimensions.getD idx 0 : Nat)
  let positiveStride := decide (0 < strideAt P idx)
  if P.beginMask.testBit idx then (if positiveStride then 0 else dim - 1)
  else ci (P.beginData.getD idx 0) dim positiveStride

/-- The end bound for dimension `idx` (src lines 53-55): `dim` (positive
stride) or `-1` (negative stride) when bit `idx` of `endMask` is set,
`ClampedIndex(endData[idx], dim, positiveStride)` otherwise. -/
def endAt (P : SliceParams) (ci : Int → Int → Bool → Int) (idx : Nat) : Int :=
  let dim : Int := (P.inputShape.dimensions.getD idx 0 : Nat)
  let positiveStride := decide (0 < strideAt P idx)
  if P.endMask.testBit idx then (if positiveStride then dim else -1)
  else ci (P.endData.getD idx 0) dim positiveStride

/-- The descending-index loop of `stridedSliceGeneric` (src lines 43-60):
for each index (supplied from `numInputDims - 1` down to `0`) it checks the
stride is nonzero (`NN_OPS_CHECK`, modelled from the spec as an early `false`
return of the whole function) and accumulates the begin/end/stride triple. -/
def sliceLoop (P : SliceParams) (ci : Int → Int → Bool → Int) :
    List Nat → Option (List Int × List Int × List Int)
  | [] => some ([], [], [])
  | idx :: rest =>
      if strideAt P idx = 0 then none
      else
        match sliceLoop P ci rest with
        | none => none
        | some (bs, es, ss) =>
            some (beginAt P ci idx :: bs, endAt P ci idx :: es, strideAt P idx :: ss)

/-- `stridedSliceGeneric` (src lines 29-91): computes the per-dimension
bounds from the last dimension down to the first, pads positions beyond the
input's rank up to 4 with begin 0, end 1, stride 1, bit-reverses both masks
over the input's rank, and dispatches on the input operand type.  It returns
`false` — performing no slice — when a stride is zero or the operand type is
neither `TENSOR_FLOAT32` nor `TENSOR_QUANT8_ASYMM`, and otherwise invokes the
reference kernel and returns `true`. -/
def stridedSliceGeneric (P : SliceParams) (ci : Int → Int → Bool → Int) :
    Bool × Option SliceCall :=
  let numInputDims := P.inputShape.dimensions.length
  match sliceLoop P ci (List.range numInputDims).reverse with
  | none => (false, none)
  | some (starts, stops, strides) =>
      let starts := starts ++ List.replicate (4 - numInputDims) 0
      let stops := stops ++ List.replicate (4 - numInputDims) 1
      let strides := strides ++ List.replicate (4 - numInputDims) 1
      let bm := reverseMaskBits P.beginMask numInputDims
      let em := reverseMaskBits P.endMask numInputDims
      if P.inputShape.type = OperandType.TENSOR_FLOAT32 then
        (true, some ⟨bm, em, starts, stops, strides, false⟩)
      else if P.inputShape.type = OperandType.TENSOR_QUANT8_ASYMM then
        (true, some ⟨bm, em, starts, stops, strides, true⟩)
      else (false, none)

theorem sliceLoop_some (P : SliceParams) (ci : Int → Int → Bool → Int)
    (l : List Nat) (h : ∀ idx ∈ l, strideAt P idx ≠ 0) :
    sliceLoop P ci l
      = some (l.map (beginAt P ci), l.map (endAt P ci), l.map (strideAt P)) := by
  induction l with
  | nil => rfl
  | cons idx rest ih =>
      have h0 : strideAt P idx ≠ 0 := h idx (List.mem_cons_self _ _)
      have hr : ∀ x ∈ rest, strideAt P x ≠ 0 :=
        fun x hx => h x (List.mem_cons_of_mem _ hx)
      show (if strideAt P idx = 0 then none else _) = _
      rw [if_neg h0, ih hr]
      rfl

/-- C9: `stridedSliceGeneric` returns false — performing no slice — whenever
the input operand type is neither `TENSOR_FLOAT32` nor `TENSOR_QUANT8_ASYMM`;
for inputs of those two types with every stride over the input's rank nonzero
it returns true. -/
theorem strided_slice_type_dispatch (P : SliceParams) (ci : Int → Int → Bool → Int) :
    (P.inputShape.type ≠ OperandType.TENSOR_FLOAT32 →
      P.inputShape.type ≠ OperandType.TENSOR_QUANT8_ASYMM →
      stridedSliceGeneric P ci = (false, none)) ∧
    ((P.inputShape.type = OperandType.TENSOR_FLOAT32 ∨
        P.inputShape.type = OperandType.TENSOR_QUANT8_ASYMM) →
      (∀ idx < P.inputShape.dimensions.length, strideAt P idx ≠ 0) →
      (stridedSliceGeneric P ci).1 = true) := by
  constructor
  · intro h1 h2
    cases hloop : sliceLoop P ci (List.range P.inputShape.dimensions.length).reverse with
    | none => simp [stridedSliceGeneric, hloop]
    | some v =>
        obtain ⟨bs, es, ss⟩ := v
        simp [stridedSliceGeneric, hloop, h1, h2]
  · intro htype hstr
    have hall : ∀ idx ∈ (List.range P.inputShape.dimensions.length).reverse,
        strideAt P idx ≠ 0 := by
      intro idx hidx
      rw [List.mem_reverse, List.mem_range] at hidx
      exact hstr idx hidx
    have hloop := sliceLoop_some P ci _ hall
    cases htype with
    | inl h => simp [stridedSliceGeneric, hloop, h]
    | inr h => simp [stridedSliceGeneric, hloop, h]

/-- Witness: an unsupported tensor type is rejected with no slice performed,
and a rank-1 float tensor with stride 1 is sliced successfully. -/
theorem strided_slice_type_dispatch_witness :
    stridedSliceGeneric
        ⟨⟨OperandType.TENSOR_INT32, [2]⟩, [0], 0, [2], 0, [1]⟩
        (fun a _ _ => a) = (false, none) ∧
    (stridedSliceGeneric
        ⟨⟨OperandType.TENSOR_FLOAT32, [2]⟩, [0], 0, [2], 0, [1]⟩
        (fun a _ _ => a)).1 = true :=
  ⟨(strided_slice_type_dispatch
      ⟨⟨OperandType.TENSOR_INT32, [2]⟩, [0], 0, [2], 0, [1]⟩
      (fun a _ _ => a)).1 (by decide) (by decide),
   (strided_slice_type_dispatch
      ⟨⟨OperandType.TENSOR_FLOAT32, [2]⟩, [0], 0, [2], 0, [1]⟩
      (fun a _ _ => a)).2 (Or.inl rfl) (by decide)⟩

/-- The slice-call arguments as claim C10 describes them, written from the
claim's own wording for comparison with the source embedding: bounds listed
for dimensions from the last down to the first — begin 0/`dim-1` by stride
sign when the begin-mask bit is set, else `ClampedIndex` of the begin datum;
end `dim`/`-1` by stride sign when the end-mask bit is set, else
`ClampedIndex` of the end datum — positions beyond the rank up to 4 padded
with begin 0, end 1, stride 1, and both masks bit-reversed over the rank. -/
def sliceCallSpec (P : SliceParams) (ci : Int → Int → Bool → Int)
    (quant8 : Bool) : SliceCall :=
  let n := P.inputShape.dimensions.length
  { beginMaskRev := reverseMaskBits P.beginMask n
    endMaskRev := reverseMaskBits P.endMask n
    starts := ((List.range n).reverse.map (beginAt P ci)) ++ List.replicate (4 - n) 0
    stops := ((List.range n).reverse.map (endAt P ci)) ++ List.replicate (4 - n) 1
    strides := ((List.range n).reverse.map (strideAt P)) ++ List.replicate (4 - n) 1
    quant8 := quant8 }

/-- C10: for every input of rank 1 to 4 with all strides nonzero and a
supported tensor type, `stridedSliceGeneric` invokes the reference slice with
exactly the arguments of `sliceCallSpec`: dimensions iterated from the last
down to the first with begin/end bounds chosen by the mask bits and
`ClampedIndex`, positions beyond the rank padded with (0, 1, 1), and both
masks bit-reversed over the input's rank. -/
theorem strided_slice_bounds (P : SliceParams) (ci : Int → Int → Bool → Int)
    (_hrank1 : 1 ≤ P.inputShape.dimensions.length)
    (_hrank4 : P.inputShape.dimensions.length ≤ 4)
    (hstr : ∀ idx < P.inputShape.dimensions.length, strideAt P idx ≠ 0) :
    (P.inputShape.type = OperandType.TENSOR_FLOAT32 →
      stridedSliceGeneric P ci = (true, some (sliceCallSpec P ci false))) ∧
    (P.inputShape.type = OperandType.TENSOR_QUANT8_ASYMM →
      stridedSliceGeneric P ci = (true, some (sliceCallSpec P ci true))) := by
  have hall : ∀ idx ∈ (List.range P.inputShape.dimensions.length).reverse,
      strideAt P idx ≠ 0 := by
    intro idx hidx
    rw [List.mem_reverse, List.mem_range] at hidx
    exact hstr idx hidx
  have hloop := sliceLoop_some P ci _ hall
  constructor
  · intro h
    simp [stridedSliceGeneric, hloop, h, sliceCallSpec]
  · intro h
    simp [stridedSliceGeneric, hloop, h, sliceCallSpec]

/-- Witness: a rank-2 float tensor with mask bit 0 set on both masks and unit
strides produces exactly the described call. -/
theorem strided_slice_bounds_witness :
    stridedSliceGeneric
        ⟨⟨OperandType.TENSOR_FLOAT32, [3, 2]⟩, [1, 1], 1, [2, 2], 1, [1, 1]⟩
        (fun a _ _ => a)
      = (true, some (sliceCallSpec
          ⟨⟨OperandType.TENSOR_FLOAT32, [3, 2]⟩, [1, 1], 1, [2, 2], 1, [1, 1]⟩
          (fun a _ _ => a) false)) :=
  (strided_slice_bounds
      ⟨⟨OperandType.TENSOR_FLOAT32, [3, 2]⟩, [1, 1], 1, [2, 2], 1, [1, 1]⟩
      (fun a _ _ => a) (by decide) (by decide) (by decide)).1 rfl

end NNRuntime
